import Mathlib

/-!
# Verification of the BayesLP persuasion solver

A shallow embedding of the BayesLP repository: a discretized linear-program
formulation of the Kolotilin (2018) Bayesian-persuasion problem.  The core
package `bplp` (problem specification, constraint builders, LP solver
adapter) is not shipped in the repository snapshot — only the driver
notebook `Bayes_LP.ipynb` and the README are — so the core operations are
modelled from the specification, while the notebook's own computations
(result-field access, flattening, the sender-utility dot product) are
embedded from the notebook source.  Real numbers are modelled by `ℚ` and
the external LP backend by an opaque primitive subject to the contract the
specification states for it (an optimal result is a feasible point).
-/

/-- Modelled from the spec: the error taxonomy of the core (`ConfigurationError`,
`EvaluationError` carrying the offending grid index when one exists,
`InfeasibleError`, `UnboundedError`, `SolverError`). -/
inductive BPError where
  | ConfigurationError (msg : String)
  | EvaluationError (idx : Option ℕ) (msg : String)
  | InfeasibleError
  | UnboundedError
  | SolverError (msg : String)
deriving DecidableEq

/-- Modelled from the spec and the notebook driver: the Problem Specification
object `BayesLP` with fields `n_grid`, `interval`, and the four user-supplied
functions.  The functions are `Option`-valued because the spec says solve must
fail with `ConfigurationError` when a required function field is unset. -/
structure BayesLP where
  n_grid : ℕ
  interval : ℚ × ℚ
  receiver_util : Option (ℚ → ℚ → ℚ)
  private_info : Option (ℚ → ℚ → ℚ)
  prior : Option (ℚ → ℚ)
  sender_util : Option (ℚ → ℚ → ℚ)

/-- A Problem Specification that passed validation: all four function fields
present, packaged with the grid size and the domain endpoints. -/
structure ValidatedSpec where
  n_grid : ℕ
  lo : ℚ
  hi : ℚ
  receiver_util : ℚ → ℚ → ℚ
  private_info : ℚ → ℚ → ℚ
  prior : ℚ → ℚ
  sender_util : ℚ → ℚ → ℚ

/-- Modelled from the spec: validation of a Problem Specification.  Fails with
`ConfigurationError` if `grid_size < 2`, if `domain[0] >= domain[1]`, or if any
required function field is unset; performed before any grid, value-matrix or
constraint construction. -/
def validate (p : BayesLP) : Except BPError ValidatedSpec :=
  if p.n_grid < 2 then
    .error (.ConfigurationError "grid_size must be at least 2")
  else if p.interval.2 ≤ p.interval.1 then
    .error (.ConfigurationError "domain lower bound must be below upper bound")
  else
    match p.receiver_util, p.private_info, p.prior, p.sender_util with
    | some u, some g, some f, some v =>
        .ok ⟨p.n_grid, p.interval.1, p.interval.2, u, g, f, v⟩
    | _, _, _, _ =>
        .error (.ConfigurationError "a required function field is unset")

/-- Modelled from the spec: `build_grid` — `n` evenly spaced sample points over
the domain, inclusive of the endpoints, deterministic given `(n, domain)`. -/
def build_grid (s : ValidatedSpec) (i : ℕ) : ℚ :=
  s.lo + (i : ℚ) * (s.hi - s.lo) / ((s.n_grid : ℚ) - 1)

/-- The grid spacing used by the quadrature. -/
def gridStep (s : ValidatedSpec) : ℚ :=
  (s.hi - s.lo) / ((s.n_grid : ℚ) - 1)

/-- Modelled from the spec: `build_value_matrix` — evaluates `sender_utility`
at every (state, message) grid pair. -/
def build_value_matrix (s : ValidatedSpec) : Fin s.n_grid → Fin s.n_grid → ℚ :=
  fun i j => s.sender_util (build_grid s i) (build_grid s j)

/-- The raw (unnormalized) prior density values at the state nodes. -/
def priorVals (s : ValidatedSpec) (i : ℕ) : ℚ :=
  s.prior (build_grid s i)

/-- Total raw prior mass over the grid. -/
def priorTotal (s : ValidatedSpec) : ℚ :=
  ∑ i : Fin s.n_grid, priorVals s i

/-- Modelled from the spec: `build_prior_constraint` — evaluates `prior_density`
at each state node and normalizes so the vector sums to 1; fails with
`EvaluationError` naming the violating grid index if any value is negative,
or with an index-free `EvaluationError` if the total mass is zero. -/
def build_prior_constraint (s : ValidatedSpec) :
    Except BPError (Fin s.n_grid → ℚ) :=
  match (List.range s.n_grid).find? (fun i => decide (priorVals s i < 0)) with
  | some i => .error (.EvaluationError (some i) "prior density is negative at a grid node")
  | none =>
      if priorTotal s = 0 then
        .error (.EvaluationError none "prior has zero total mass on the grid")
      else
        .ok fun i => priorVals s i / priorTotal s

/-- Modelled from the spec: `build_ic_constraint` — an n×n coefficient matrix;
for message column `j` (a cutoff recommendation at node `j`) the coefficient at
state `i` is the receiver-utility term weighted by the private-signal density,
integrated by grid quadrature over the signal range above the cutoff.  The spec
leaves the exact quadrature rule open; a left-endpoint rule scaled by the grid
spacing is used, as any single consistent rule is admissible. -/
def build_ic_constraint (s : ValidatedSpec) : Fin s.n_grid → Fin s.n_grid → ℚ :=
  fun i j =>
    ∑ k ∈ Finset.Ico (j : ℕ) s.n_grid,
      s.receiver_util (build_grid s i) (build_grid s k) *
        s.private_info (build_grid s i) (build_grid s k) * gridStep s

/-- Index of the state row encoded by flat index `k` under row-major order. -/
def rowIdx {n : ℕ} (k : Fin (n * n)) : Fin n :=
  ⟨(k : ℕ) / n, by
    have hn : 0 < n := by
      rcases Nat.eq_zero_or_pos n with h | h
      · exact absurd k.isLt (by simp [h])
      · exact h
    exact Nat.div_lt_iff_lt_mul hn |>.mpr k.isLt⟩

/-- Index of the message column encoded by flat index `k` under row-major order. -/
def colIdx {n : ℕ} (k : Fin (n * n)) : Fin n :=
  ⟨(k : ℕ) % n, by
    have hn : 0 < n := by
      rcases Nat.eq_zero_or_pos n with h | h
      · exact absurd k.isLt (by simp [h])
      · exact h
    exact Nat.mod_lt _ hn⟩

/-- Row-major flat index of the matrix entry `(i, j)`. -/
def pairIdx {n : ℕ} (i j : Fin n) : Fin (n * n) :=
  ⟨(i : ℕ) * n + (j : ℕ), by
    calc (i : ℕ) * n + (j : ℕ) < (i : ℕ) * n + n := by
          exact Nat.add_lt_add_left j.isLt _
      _ = ((i : ℕ) + 1) * n := (Nat.succ_mul _ _).symm
      _ ≤ n * n := Nat.mul_le_mul_right _ i.isLt⟩

/-- Modelled from the spec: `flatten` — row-major flattening of an n×n matrix
into a vector of length n².  (The notebook performs the same operation through
`reshape((n**2))` on its n×n arrays.) -/
def flatten {n : ℕ} (M : Fin n → Fin n → ℚ) : Fin (n * n) → ℚ :=
  fun k => M (rowIdx k) (colIdx k)

/-- Modelled from the spec: `reshape` — the row-major inverse of `flatten`,
rebuilding an n×n matrix from a vector of length n². -/
def reshape {n : ℕ} (v : Fin (n * n) → ℚ) : Fin n → Fin n → ℚ :=
  fun i j => v (pairIdx i j)

theorem rowIdx_pairIdx {n : ℕ} (i j : Fin n) : rowIdx (pairIdx i j) = i := by
  apply Fin.ext
  show ((i : ℕ) * n + (j : ℕ)) / n = i
  have hn : 0 < n := Fin.pos i
  rw [Nat.mul_comm (i : ℕ) n, Nat.mul_add_div hn, Nat.div_eq_of_lt j.isLt, Nat.add_zero]

theorem colIdx_pairIdx {n : ℕ} (i j : Fin n) : colIdx (pairIdx i j) = j := by
  apply Fin.ext
  show ((i : ℕ) * n + (j : ℕ)) % n = j
  rw [Nat.mul_comm (i : ℕ) n, Nat.mul_add_mod, Nat.mod_eq_of_lt j.isLt]

theorem pairIdx_rowIdx_colIdx {n : ℕ} (k : Fin (n * n)) :
    pairIdx (rowIdx k) (colIdx k) = k := by
  apply Fin.ext
  show (k : ℕ) / n * n + (k : ℕ) % n = k
  rw [Nat.mul_comm ((k : ℕ) / n) n]
  exact Nat.div_add_mod _ _

/-- Summing a function of a flat index equals the double sum over the matrix
positions it encodes. -/
theorem sum_flat {n : ℕ} (f : Fin (n * n) → ℚ) :
    ∑ k, f k = ∑ i : Fin n, ∑ j : Fin n, f (pairIdx i j) := by
  have h := Fintype.sum_equiv (finProdFinEquiv (m := n) (n := n))
    (fun p => f (finProdFinEquiv p)) f (fun p => rfl)
  rw [← h, Fintype.sum_prod_type]
  refine Finset.sum_congr rfl fun i _ => Finset.sum_congr rfl fun j _ => ?_
  congr 1
  apply Fin.ext
  show (j : ℕ) + n * (i : ℕ) = (i : ℕ) * n + (j : ℕ)
  ring

/-- Dot product of two vectors of the same length. -/
def dot {N : ℕ} (a b : Fin N → ℚ) : ℚ :=
  ∑ k, a k * b k

/-- Modelled from the spec: the data handed to the external LP primitive —
a cost vector over `nvars` unknowns, an equality system `A_eq x = b_eq`,
an upper-bound inequality system `A_ub x ≤ b_ub`, and per-variable bounds
(a lower bound and an optional upper bound). -/
structure LinProg where
  nvars : ℕ
  neq : ℕ
  nub : ℕ
  cost : Fin nvars → ℚ
  A_eq : Fin neq → Fin nvars → ℚ
  b_eq : Fin neq → ℚ
  A_ub : Fin nub → Fin nvars → ℚ
  b_ub : Fin nub → ℚ
  lb : Fin nvars → ℚ
  ub : Fin nvars → Option ℚ

/-- An optional upper bound is respected: no bound, or the value is below it. -/
def ubOK : Option ℚ → ℚ → Prop
  | none, _ => True
  | some c, v => v ≤ c

instance : ∀ (o : Option ℚ) (v : ℚ), Decidable (ubOK o v)
  | none, _ => isTrue trivial
  | some _, _ => inferInstanceAs (Decidable (_ ≤ _))

/-- Feasibility of a point for a linear program: the equalities, the
inequalities, and the per-variable bounds all hold. -/
def LinProg.feasible (L : LinProg) (x : Fin L.nvars → ℚ) : Prop :=
  (∀ i, dot (L.A_eq i) x = L.b_eq i) ∧
    (∀ i, dot (L.A_ub i) x ≤ L.b_ub i) ∧
    (∀ k, L.lb k ≤ x k) ∧
    (∀ k, ubOK (L.ub k) (x k))

instance (L : LinProg) (x : Fin L.nvars → ℚ) : Decidable (L.feasible x) := by
  unfold LinProg.feasible
  infer_instance

/-- Status reported by the external LP primitive. -/
inductive LPStatus where
  | optimal
  | infeasible
  | unbounded
  | failed
deriving DecidableEq

/-- What the external LP primitive returns: a status together with a candidate
point (meaningful when the status is `optimal`). -/
structure LPResult (N : ℕ) where
  status : LPStatus
  x : Fin N → ℚ

/-- The external LP solve primitive, treated as an opaque black box. -/
def LPPrimitive : Type :=
  (L : LinProg) → LPResult L.nvars

/-- The contract the spec states for the LP primitive: when it reports an
optimal solution, the returned vector is feasible for the submitted program. -/
def LPContract (lp : LPPrimitive) : Prop :=
  ∀ L : LinProg, (lp L).status = .optimal → L.feasible ((lp L).x)

/-- Modelled from the spec: assembly of the linear program over the n² flattened
unknowns — the cost vector is the negated flattened value matrix; one equality
row per state forces that state's row-sum to the prior mass; one inequality row
per message column forces the IC functional of that column to be nonnegative
(written as `A_ub x ≤ 0` with negated IC coefficients); every unknown has lower
bound 0 and no upper bound. -/
def assembleLP (s : ValidatedSpec) (prior : Fin s.n_grid → ℚ) : LinProg where
  nvars := s.n_grid * s.n_grid
  neq := s.n_grid
  nub := s.n_grid
  cost := fun k => -(flatten (build_value_matrix s) k)
  A_eq := fun i k => if rowIdx k = i then 1 else 0
  b_eq := prior
  A_ub := fun j k => if colIdx k = j then -(build_ic_constraint s (rowIdx k) j) else 0
  b_ub := fun _ => 0
  lb := fun _ => 0
  ub := fun _ => none

/-- Modelled from the spec: the result bundle returned by a successful solve —
grid size, the n×n mechanism, the prior-constraint vector, the IC-constraint
coefficient data, the value matrix, and the solver status.  (The notebook reads
exactly the keys `n_grid`, `mechanism`, `prior_constraint`, `ic_constraint`,
`value_mat` from it.) -/
structure MechanismResult where
  n_grid : ℕ
  mechanism : Fin n_grid → Fin n_grid → ℚ
  prior_constraint : Fin n_grid → ℚ
  ic_constraint : Fin n_grid → Fin n_grid → ℚ
  value_mat : Fin n_grid → Fin n_grid → ℚ
  status : LPStatus

/-- Modelled from the spec: `bayes_lp_solver` — validates the Problem
Specification, builds the prior constraint, value matrix and IC coefficients,
assembles and submits the LP, and on success reshapes the returned flat vector
into the n×n mechanism and bundles the result; solver failure statuses map to
`InfeasibleError`, `UnboundedError` and `SolverError`. -/
def bayes_lp_solver (lp : LPPrimitive) (p : BayesLP) :
    Except BPError MechanismResult :=
  match validate p with
  | .error e => .error e
  | .ok s =>
      match build_prior_constraint s with
      | .error e => .error e
      | .ok prior =>
          match (lp (assembleLP s prior)).status with
          | .optimal =>
              .ok { n_grid := s.n_grid
                    mechanism := reshape ((lp (assembleLP s prior)).x)
                    prior_constraint := prior
                    ic_constraint := build_ic_constraint s
                    value_mat := build_value_matrix s
                    status := .optimal }
          | .infeasible => .error .InfeasibleError
          | .unbounded => .error .UnboundedError
          | .failed => .error (.SolverError "backend numerical failure")

/-- Embedded from the notebook (result-extraction cell): the sender's achieved
expected utility, the dot product of the flattened value matrix with the
flattened mechanism. -/
def total_utility (r : MechanismResult) : ℚ :=
  dot (flatten r.value_mat) (flatten r.mechanism)

theorem reshape_flatten {n : ℕ} (M : Fin n → Fin n → ℚ) :
    reshape (flatten M) = M := by
  funext i j
  show flatten M (pairIdx i j) = M i j
  unfold flatten
  rw [rowIdx_pairIdx, colIdx_pairIdx]

theorem flatten_reshape {n : ℕ} (v : Fin (n * n) → ℚ) :
    flatten (reshape v) = v := by
  funext k
  show reshape v (rowIdx k) (colIdx k) = v k
  unfold reshape
  rw [pairIdx_rowIdx_colIdx]

/-- Dotting an indicator row (all positions of state row `i`) against a flat
vector recovers the row sum of the reshaped matrix. -/
theorem dot_row_indicator {n : ℕ} (i : Fin n) (x : Fin (n * n) → ℚ) :
    dot (fun k => if rowIdx k = i then 1 else 0) x = ∑ j, reshape x i j := by
  unfold dot
  rw [sum_flat (fun k => (if rowIdx k = i then (1 : ℚ) else 0) * x k)]
  have h1 : ∀ a : Fin n,
      (∑ j : Fin n, (if rowIdx (pairIdx a j) = i then (1 : ℚ) else 0) * x (pairIdx a j))
        = if a = i then ∑ j : Fin n, reshape x i j else 0 := by
    intro a
    by_cases ha : a = i
    · subst ha
      simp [rowIdx_pairIdx, reshape]
    · simp [rowIdx_pairIdx, ha]
  rw [Finset.sum_congr rfl fun a _ => h1 a]
  simp

/-- Dotting a column-selector row (coefficients `c` placed along message column
`j`) against a flat vector recovers the weighted column sum of the reshape. -/
theorem dot_col_select {n : ℕ} (j : Fin n) (c : Fin n → ℚ) (x : Fin (n * n) → ℚ) :
    dot (fun k => if colIdx k = j then c (rowIdx k) else 0) x
      = ∑ i, c i * reshape x i j := by
  unfold dot
  rw [sum_flat (fun k => (if colIdx k = j then c (rowIdx k) else 0) * x k)]
  have h1 : ∀ a : Fin n,
      (∑ b : Fin n, (if colIdx (pairIdx a b) = j then c (rowIdx (pairIdx a b)) else 0) * x (pairIdx a b))
        = c a * reshape x a j := by
    intro a
    have h2 : ∀ b : Fin n,
        (if colIdx (pairIdx a b) = j then c (rowIdx (pairIdx a b)) else 0) * x (pairIdx a b)
          = if b = j then c a * reshape x a j else 0 := by
      intro b
      by_cases hb : b = j
      · subst hb
        simp [colIdx_pairIdx, rowIdx_pairIdx, reshape]
      · simp [colIdx_pairIdx, hb]
    rw [Finset.sum_congr rfl fun b _ => h2 b]
    simp
  rw [Finset.sum_congr rfl fun a _ => h1 a]

/-- Negating the left argument of a dot product negates the dot product. -/
theorem dot_neg_left {N : ℕ} (a b : Fin N → ℚ) :
    dot (fun k => -(a k)) b = -(dot a b) := by
  unfold dot
  rw [← Finset.sum_neg_distrib]
  exact Finset.sum_congr rfl fun k _ => by ring

/-- The dot product of two flattened matrices is the entrywise double sum. -/
theorem dot_flatten_flatten {n : ℕ} (A B : Fin n → Fin n → ℚ) :
    dot (flatten A) (flatten B) = ∑ i, ∑ j, A i j * B i j := by
  unfold dot
  rw [sum_flat (fun k => flatten A k * flatten B k)]
  refine Finset.sum_congr rfl fun i _ => Finset.sum_congr rfl fun j _ => ?_
  unfold flatten
  rw [rowIdx_pairIdx, colIdx_pairIdx]

/-- Inversion of a successful solve: it passed validation, built the prior,
got an optimal status from the LP primitive on the assembled program, and
returned exactly the bundle of the pipeline's artifacts. -/
theorem solver_ok_inversion (lp : LPPrimitive) (p : BayesLP) (r : MechanismResult)
    (h : bayes_lp_solver lp p = .ok r) :
    ∃ (s : ValidatedSpec) (prior : Fin s.n_grid → ℚ),
      validate p = .ok s ∧ build_prior_constraint s = .ok prior ∧
      (lp (assembleLP s prior)).status = .optimal ∧
      r = { n_grid := s.n_grid
            mechanism := reshape ((lp (assembleLP s prior)).x)
            prior_constraint := prior
            ic_constraint := build_ic_constraint s
            value_mat := build_value_matrix s
            status := .optimal } := by
  unfold bayes_lp_solver at h
  split at h
  · simp at h
  · split at h
    · simp at h
    · split at h
      · rename_i x1 s hv x2 prior hp x3 hst
        refine ⟨s, prior, hv, hp, hst, ?_⟩
        injection h with h'
        exact h'.symm
      · simp at h
      · simp at h
      · simp at h

/-- Validation preserves the requested grid size. -/
theorem validate_ok_n_grid (p : BayesLP) (s : ValidatedSpec)
    (hv : validate p = .ok s) : s.n_grid = p.n_grid := by
  unfold validate at hv
  split at hv
  · exact absurd hv (by simp)
  · split at hv
    · exact absurd hv (by simp)
    · split at hv
      · injection hv with h
        rw [← h]
      · exact absurd hv (by simp)

/-- C1: For every mechanism matrix returned by a successful solve, and for
every state index `i`, the sum over all message indices `j` of `μ[i][j]`
equals the discretized (normalized) prior mass at state `i`.  (In this exact
rational model the row-sum law holds exactly, hence within any tolerance.) -/
theorem solved_mechanism_row_sums (lp : LPPrimitive) (hc : LPContract lp)
    (p : BayesLP) (r : MechanismResult) (h : bayes_lp_solver lp p = .ok r) :
    ∀ i, (∑ j, r.mechanism i j) = r.prior_constraint i := by
  obtain ⟨s, prior, hv, hp, hst, hr⟩ := solver_ok_inversion lp p r h
  subst hr
  intro i
  have hfeas := hc _ hst
  have heq := hfeas.1 i
  rw [show (∑ j, reshape ((lp (assembleLP s prior)).x) i j) = prior i
        from by rw [← dot_row_indicator]; exact heq]

/-- C2: For every mechanism returned by a successful solve and every message
column `j` of positive total mass, the incentive-compatibility functional
built by `build_ic_constraint`, evaluated on column `j` of the mechanism, is
nonnegative.  (It is in fact nonnegative for every column, mass-positive or
not, since the LP poses one IC inequality per column.) -/
theorem solved_mechanism_ic_nonneg (lp : LPPrimitive) (hc : LPContract lp)
    (p : BayesLP) (r : MechanismResult) (h : bayes_lp_solver lp p = .ok r)
    (j : Fin r.n_grid) (hmass : 0 < ∑ i, r.mechanism i j) :
    0 ≤ ∑ i, r.ic_constraint i j * r.mechanism i j := by
  obtain ⟨s, prior, hv, hp, hst, hr⟩ := solver_ok_inversion lp p r h
  subst hr
  have hfeas := hc _ hst
  have hub := hfeas.2.1 j
  have hub' : (∑ i, -(build_ic_constraint s i j) *
      reshape ((lp (assembleLP s prior)).x) i j) ≤ 0 := by
    rw [← dot_col_select j (fun i => -(build_ic_constraint s i j))]
    exact hub
  rw [show (∑ i, -(build_ic_constraint s i j) * reshape ((lp (assembleLP s prior)).x) i j)
        = -(∑ i, build_ic_constraint s i j * reshape ((lp (assembleLP s prior)).x) i j)
      from by rw [← Finset.sum_neg_distrib]; exact Finset.sum_congr rfl fun i _ => by ring] at hub'
  linarith

/-- C4: The LP is posed with lower bound 0 on every one of the n² unknowns
and no explicit upper bound; consequently every entry of any returned
mechanism matrix is nonnegative. -/
theorem lp_bounds_zero_and_mechanism_nonneg :
    (∀ (s : ValidatedSpec) (prior : Fin s.n_grid → ℚ),
        (assembleLP s prior).lb = (fun _ => (0 : ℚ)) ∧
        (assembleLP s prior).ub = (fun _ => none)) ∧
    (∀ (lp : LPPrimitive), LPContract lp → ∀ (p : BayesLP) (r : MechanismResult),
        bayes_lp_solver lp p = .ok r → ∀ i j, 0 ≤ r.mechanism i j) := by
  constructor
  · intro s prior
    exact ⟨rfl, rfl⟩
  · intro lp hc p r h i j
    obtain ⟨s, prior, hv, hp, hst, hr⟩ := solver_ok_inversion lp p r h
    subst hr
    have hfeas := hc _ hst
    exact hfeas.2.2.1 (pairIdx i j)

/-- C5: The cost vector submitted to the LP primitive is the negation of the
flattened sender value matrix — entrywise it is the negated sender utility at
the corresponding grid pair — so the minimized objective is the negated sender
expected utility. -/
theorem lp_cost_is_negated_value (s : ValidatedSpec) (prior : Fin s.n_grid → ℚ) :
    (assembleLP s prior).cost = (fun k => -(flatten (build_value_matrix s) k)) ∧
    (∀ k, (assembleLP s prior).cost k =
        -(s.sender_util (build_grid s (rowIdx k)) (build_grid s (colIdx k)))) ∧
    (∀ x, dot ((assembleLP s prior).cost) x = -(dot (flatten (build_value_matrix s)) x)) := by
  refine ⟨rfl, fun k => rfl, fun x => ?_⟩
  exact dot_neg_left (flatten (build_value_matrix s)) x

/-- C6: `flatten` and `reshape` use the single row-major ordering convention
and are mutual inverses on the full value range: reshaping a flattened n×n
matrix restores it, and flattening a reshaped n²-vector restores it. -/
theorem flatten_reshape_inverses :
    ∀ (n : ℕ), (∀ M : Fin n → Fin n → ℚ, reshape (flatten M) = M) ∧
      (∀ v : Fin (n * n) → ℚ, flatten (reshape v) = v) := by
  intro n
  exact ⟨fun M => reshape_flatten M, fun v => flatten_reshape v⟩

/-- C3: A successful solve returns a bundle holding exactly the grid size, the
n×n mechanism reshaped from the LP solution, the prior-constraint vector, the
IC-constraint data, the value matrix, and the solver status; in this pure
model the bundle is a value, so no component can mutate it after return. -/
theorem solve_result_bundle (lp : LPPrimitive) (p : BayesLP) (s : ValidatedSpec)
    (prior : Fin s.n_grid → ℚ) (r : MechanismResult)
    (hv : validate p = .ok s) (hp : build_prior_constraint s = .ok prior)
    (h : bayes_lp_solver lp p = .ok r) :
    r = { n_grid := s.n_grid
          mechanism := reshape ((lp (assembleLP s prior)).x)
          prior_constraint := prior
          ic_constraint := build_ic_constraint s
          value_mat := build_value_matrix s
          status := .optimal } := by
  obtain ⟨s', prior', hv', hp', hst', hr⟩ := solver_ok_inversion lp p r h
  rw [hv] at hv'
  injection hv' with hs
  subst hs
  rw [hp] at hp'
  injection hp' with hprior
  subst hprior
  exact hr

/-- C9: Solving is deterministic — two calls with Problem Specifications that
agree field-by-field (same grid size, domain and user functions) produce the
same result, a successful mechanism and a failure alike. -/
theorem solve_deterministic (lp : LPPrimitive) (p q : BayesLP)
    (h1 : p.n_grid = q.n_grid) (h2 : p.interval = q.interval)
    (h3 : p.receiver_util = q.receiver_util) (h4 : p.private_info = q.private_info)
    (h5 : p.prior = q.prior) (h6 : p.sender_util = q.sender_util) :
    bayes_lp_solver lp p = bayes_lp_solver lp q := by
  have hpq : p = q := by
    cases p
    cases q
    congr 1
  rw [hpq]

/-- C10: The successful result bundle is shape-consistent — its grid-size entry
is the specification's, its mechanism and value matrix are both n×n by
construction so both flatten to vectors of length n², the notebook's
`total_utility` is their dot product, which equals the entrywise double sum
and equals the negated LP objective at the solution. -/
theorem solve_result_shape_and_utility (lp : LPPrimitive) (p : BayesLP)
    (s : ValidatedSpec) (prior : Fin s.n_grid → ℚ) (r : MechanismResult)
    (hv : validate p = .ok s) (hp : build_prior_constraint s = .ok prior)
    (h : bayes_lp_solver lp p = .ok r) :
    r.n_grid = p.n_grid ∧
    total_utility r = ∑ i, ∑ j, r.value_mat i j * r.mechanism i j ∧
    total_utility r = -(dot ((assembleLP s prior).cost) ((lp (assembleLP s prior)).x)) := by
  obtain ⟨s', prior', hv', hp', hst', hr⟩ := solver_ok_inversion lp p r h
  rw [hv] at hv'
  injection hv' with hs
  subst hs
  rw [hp] at hp'
  injection hp' with hprior
  subst hprior
  subst hr
  refine ⟨validate_ok_n_grid p s hv, ?_, ?_⟩
  · exact dot_flatten_flatten (build_value_matrix s) (reshape ((lp (assembleLP s prior)).x))
  · show dot (flatten (build_value_matrix s)) (flatten (reshape ((lp (assembleLP s prior)).x)))
      = -(dot ((assembleLP s prior).cost) ((lp (assembleLP s prior)).x))
    rw [flatten_reshape]
    rw [show dot ((assembleLP s prior).cost) ((lp (assembleLP s prior)).x)
          = -(dot (flatten (build_value_matrix s)) ((lp (assembleLP s prior)).x))
        from dot_neg_left _ _]
    ring

/-- The result is a `ConfigurationError`. -/
def isConfigErr {α : Type} : Except BPError α → Prop
  | .error (.ConfigurationError _) => True
  | _ => False

/-- C7: Any Problem Specification with `grid_size < 2`, an inverted domain, or
a missing function field makes solve fail with `ConfigurationError` — for any
LP primitive whatsoever, since validation precedes all construction. -/
theorem invalid_spec_config_error (lp : LPPrimitive) (p : BayesLP)
    (h : p.n_grid < 2 ∨ p.interval.1 ≥ p.interval.2 ∨ p.receiver_util = none ∨
        p.private_info = none ∨ p.prior = none ∨ p.sender_util = none) :
    isConfigErr (bayes_lp_solver lp p) := by
  have key : ∀ e, validate p = .error e → isConfigErr (bayes_lp_solver lp p) := by
    intro e he
    unfold bayes_lp_solver
    rw [he]
    have hc : ∀ m, e = .ConfigurationError m → isConfigErr (α := MechanismResult) (.error e) := by
      intro m hm
      rw [hm]
      trivial
    revert he
    unfold validate
    by_cases h1 : p.n_grid < 2
    · rw [if_pos h1]
      intro he
      injection he with he'
      exact hc _ he'.symm
    · rw [if_neg h1]
      by_cases h2 : p.interval.2 ≤ p.interval.1
      · rw [if_pos h2]
        intro he
        injection he with he'
        exact hc _ he'.symm
      · rw [if_neg h2]
        rcases o1 : p.receiver_util with _ | u
        · intro he
          injection he with he'
          exact hc _ he'.symm
        · rcases o2 : p.private_info with _ | g
          · intro he
            injection he with he'
            exact hc _ he'.symm
          · rcases o3 : p.prior with _ | f
            · intro he
              injection he with he'
              exact hc _ he'.symm
            · rcases o4 : p.sender_util with _ | v
              · intro he
                injection he with he'
                exact hc _ he'.symm
              · intro he
                injection he
  by_cases h1 : p.n_grid < 2
  · exact key _ (by unfold validate; rw [if_pos h1])
  · by_cases h2 : p.interval.2 ≤ p.interval.1
    · exact key _ (by unfold validate; rw [if_neg h1, if_pos h2])
    · rcases o1 : p.receiver_util with _ | u
      · exact key (.ConfigurationError "a required function field is unset")
          (by unfold validate; rw [if_neg h1, if_neg h2, o1])
      · rcases o2 : p.private_info with _ | g
        · exact key (.ConfigurationError "a required function field is unset")
            (by unfold validate; rw [if_neg h1, if_neg h2, o1, o2])
        · rcases o3 : p.prior with _ | f
          · exact key (.ConfigurationError "a required function field is unset")
              (by unfold validate; rw [if_neg h1, if_neg h2, o1, o2, o3])
          · rcases o4 : p.sender_util with _ | v
            · exact key (.ConfigurationError "a required function field is unset")
                (by unfold validate; rw [if_neg h1, if_neg h2, o1, o2, o3, o4])
            · exfalso
              rcases h with h | h | h | h | h | h
              · exact h1 h
              · exact h2 h
              · rw [o1] at h
                exact Option.noConfusion h
              · rw [o2] at h
                exact Option.noConfusion h
              · rw [o3] at h
                exact Option.noConfusion h
              · rw [o4] at h
                exact Option.noConfusion h

/-- The result is an `EvaluationError` naming a grid index at which the prior
density is in fact negative. -/
def negPriorErr (s : ValidatedSpec) : Except BPError (Fin s.n_grid → ℚ) → Prop
  | .error (.EvaluationError (some j) _) => j < s.n_grid ∧ priorVals s j < 0
  | _ => False

/-- C8: `build_prior_constraint` evaluates the prior density at the state
nodes and returns the normalization (each entry the raw value divided by the
total, the whole vector summing to 1); when some node has a negative value it
returns an `EvaluationError` identifying a violating grid index, and when all
values are nonnegative but the total mass is zero it returns an
`EvaluationError` instead of a vector. -/
theorem build_prior_constraint_spec (s : ValidatedSpec) :
    (∀ v, build_prior_constraint s = .ok v →
        (∀ i, v i = priorVals s i / priorTotal s) ∧ (∑ i, v i) = 1) ∧
    ((∃ i : Fin s.n_grid, priorVals s i < 0) →
        negPriorErr s (build_prior_constraint s)) ∧
    ((∀ i : Fin s.n_grid, 0 ≤ priorVals s i) → priorTotal s = 0 →
        build_prior_constraint s =
          .error (.EvaluationError none "prior has zero total mass on the grid")) := by
  refine ⟨?_, ?_, ?_⟩
  · intro v hv
    unfold build_prior_constraint at hv
    split at hv
    · simp at hv
    · split at hv
      · simp at hv
      · rename_i hfind hzero
        injection hv with hv'
        constructor
        · intro i
          rw [← hv']
        · rw [← hv']
          rw [← Finset.sum_div]
          exact div_self (by exact hzero)
  · rintro ⟨i, hi⟩
    unfold build_prior_constraint
    rcases hfind : (List.range s.n_grid).find? (fun i => decide (priorVals s i < 0)) with _ | j
    · exfalso
      have := List.find?_eq_none.mp hfind (i : ℕ) (List.mem_range.mpr i.isLt)
      exact this (decide_eq_true hi)
    · have hj1 : j < s.n_grid :=
        List.mem_range.mp (List.mem_of_find?_eq_some hfind)
      have hq := @List.find?_some ℕ (fun i => decide (priorVals s i < 0)) j _ hfind
      have hj2 : priorVals s j < 0 := of_decide_eq_true hq
      exact ⟨hj1, hj2⟩
  · intro hpos hzero
    unfold build_prior_constraint
    rcases hfind : (List.range s.n_grid).find? (fun i => decide (priorVals s i < 0)) with _ | j
    · rw [if_pos hzero]
    · exfalso
      have hj1 : j < s.n_grid :=
        List.mem_range.mp (List.mem_of_find?_eq_some hfind)
      have hq := @List.find?_some ℕ (fun i => decide (priorVals s i < 0)) j _ hfind
      have hj2 : priorVals s j < 0 := of_decide_eq_true hq
      exact absurd (hpos ⟨j, hj1⟩) (not_le.mpr hj2)


/-- Forward evaluation of a solve whose pipeline steps are known: validation
and prior construction succeed and the LP primitive reports optimal. -/
theorem bayes_lp_solver_eq (lp : LPPrimitive) (p : BayesLP) (s : ValidatedSpec)
    (prior : Fin s.n_grid → ℚ)
    (hv : validate p = .ok s) (hp : build_prior_constraint s = .ok prior)
    (hst : (lp (assembleLP s prior)).status = .optimal) :
    bayes_lp_solver lp p =
      .ok { n_grid := s.n_grid
            mechanism := reshape ((lp (assembleLP s prior)).x)
            prior_constraint := prior
            ic_constraint := build_ic_constraint s
            value_mat := build_value_matrix s
            status := .optimal } := by
  unfold bayes_lp_solver
  split
  · rename_i e heq
    rw [hv] at heq
    simp at heq
  · rename_i s' heq
    rw [hv] at heq
    injection heq with hs
    subst hs
    split
    · rename_i e heq2
      rw [hp] at heq2
      simp at heq2
    · rename_i prior' heq2
      rw [hp] at heq2
      injection heq2 with hpr
      subst hpr
      split
      · rfl
      · rename_i heq3
        rw [hst] at heq3
        simp at heq3
      · rename_i heq3
        rw [hst] at heq3
        simp at heq3
      · rename_i heq3
        rw [hst] at heq3
        simp at heq3

/-- A concrete LP primitive used for worked examples: it returns the constant
point `1/4` as optimal when that point is feasible, and a failure otherwise. -/
def oracleLP : LPPrimitive := fun L =>
  if L.feasible (fun _ => (1 : ℚ)/4) then
    { status := .optimal, x := fun _ => 1/4 }
  else
    { status := .failed, x := fun _ => 0 }

theorem oracleLP_contract : LPContract oracleLP := by
  intro L h
  unfold oracleLP at h ⊢
  by_cases hf : L.feasible (fun _ => (1 : ℚ)/4)
  · rw [if_pos hf]
    exact hf
  · rw [if_neg hf] at h
    simp at h

/-- A concrete valid Problem Specification on a 2-point grid over [0,1]:
flat prior, flat private-signal density, zero receiver utility and linear
(message-only) sender utility. -/
def exSpec : BayesLP :=
  { n_grid := 2
    interval := (0, 1)
    receiver_util := some (fun _ _ => 0)
    private_info := some (fun _ _ => 1)
    prior := some (fun _ => 1)
    sender_util := some (fun _ m => m) }

/-- A field-by-field copy of `exSpec`. -/
def exSpecCopy : BayesLP :=
  { n_grid := 2
    interval := (0, 1)
    receiver_util := some (fun _ _ => 0)
    private_info := some (fun _ _ => 1)
    prior := some (fun _ => 1)
    sender_util := some (fun _ m => m) }

/-- The validated form of `exSpec`. -/
def exValid : ValidatedSpec :=
  { n_grid := 2
    lo := 0
    hi := 1
    receiver_util := fun _ _ => 0
    private_info := fun _ _ => 1
    prior := fun _ => 1
    sender_util := fun _ m => m }

/-- The normalized prior of `exSpec`: uniform mass 1/2 on each of the 2 nodes. -/
def exPrior : Fin exValid.n_grid → ℚ := fun _ => 1/2

theorem exValidate : validate exSpec = .ok exValid := rfl

theorem exPriorTotal : priorTotal exValid = 2 := by
  show (∑ i : Fin 2, priorVals exValid (i : ℕ)) = 2
  rw [Fin.sum_univ_two]
  norm_num [priorVals, exValid]

theorem exPriorConstraint : build_prior_constraint exValid = .ok exPrior := by
  have hfun : (fun i : Fin exValid.n_grid => priorVals exValid i / priorTotal exValid)
      = exPrior := by
    funext i
    show priorVals exValid i / priorTotal exValid = 1/2
    rw [exPriorTotal]
    norm_num [priorVals, exValid]
  unfold build_prior_constraint
  rw [show (List.range exValid.n_grid).find?
        (fun i => decide (priorVals exValid i < 0)) = none from ?_]
  · rw [if_neg (show ¬priorTotal exValid = 0 from by rw [exPriorTotal]; norm_num)]
    exact congrArg Except.ok hfun
  · rw [List.find?_eq_none]
    intro a ha
    simp only [decide_eq_true_eq]
    norm_num [priorVals, exValid]

theorem exICzero : build_ic_constraint exValid = fun _ _ => 0 := by
  funext i j
  unfold build_ic_constraint
  simp [exValid]

theorem exValueMat : build_value_matrix exValid = fun _ j => (j.val : ℚ) := by
  funext i j
  unfold build_value_matrix build_grid
  norm_num [exValid]

theorem exFeasible : (assembleLP exValid exPrior).feasible (fun _ => (1 : ℚ)/4) := by
  refine ⟨?_, ?_, ?_, ?_⟩
  · intro i
    show dot (fun k => if rowIdx k = i then 1 else 0) (fun _ => (1 : ℚ)/4) = exPrior i
    rw [dot_row_indicator]
    simp [reshape, exPrior, Finset.card_univ, assembleLP, exValid]
    norm_num
  · intro j
    show dot (fun k => if colIdx k = j then -(build_ic_constraint exValid (rowIdx k) j) else 0)
        (fun _ => (1 : ℚ)/4) ≤ 0
    rw [exICzero]
    simp [dot]
  · intro k
    show (0 : ℚ) ≤ 1/4
    norm_num
  · intro k
    show ubOK none ((1 : ℚ)/4)
    trivial

theorem exStatus : (oracleLP (assembleLP exValid exPrior)).status = .optimal := by
  unfold oracleLP
  rw [if_pos exFeasible]

theorem exPoint : (oracleLP (assembleLP exValid exPrior)).x = fun _ => (1 : ℚ)/4 := by
  unfold oracleLP
  rw [if_pos exFeasible]

/-- The concrete result bundle of solving `exSpec` with `oracleLP`. -/
def exResult : MechanismResult :=
  { n_grid := 2
    mechanism := fun _ _ => 1/4
    prior_constraint := fun _ => 1/2
    ic_constraint := fun _ _ => 0
    value_mat := fun _ j => (j.val : ℚ)
    status := .optimal }

theorem exSolve : bayes_lp_solver oracleLP exSpec = .ok exResult := by
  rw [bayes_lp_solver_eq oracleLP exSpec exValid exPrior exValidate exPriorConstraint exStatus]
  rw [exPoint, exICzero, exValueMat]
  rfl

/-- A validated spec whose prior density is negative everywhere. -/
def negValid : ValidatedSpec :=
  { exValid with prior := fun _ => -1 }

/-- A validated spec whose prior density is zero everywhere. -/
def zeroValid : ValidatedSpec :=
  { exValid with prior := fun _ => 0 }

/-- An invalid Problem Specification: 1-point grid, all function fields unset. -/
def badSpec : BayesLP :=
  { n_grid := 1
    interval := (0, 1)
    receiver_util := none
    private_info := none
    prior := none
    sender_util := none }

/-- Witness for C1 at the concrete 2-point example: both row sums of the
solved mechanism equal the normalized prior mass 1/2. -/
theorem solved_mechanism_row_sums_witness :
    (∑ j, exResult.mechanism ⟨0, by decide⟩ j) = exResult.prior_constraint ⟨0, by decide⟩ ∧
    (∑ j, exResult.mechanism ⟨1, by decide⟩ j) = exResult.prior_constraint ⟨1, by decide⟩ :=
  ⟨solved_mechanism_row_sums oracleLP oracleLP_contract exSpec exResult exSolve ⟨0, by decide⟩,
   solved_mechanism_row_sums oracleLP oracleLP_contract exSpec exResult exSolve ⟨1, by decide⟩⟩

/-- Witness for C2 at the concrete example: message column 0 has mass 1/2 > 0
and its IC functional evaluates to a nonnegative value. -/
theorem solved_mechanism_ic_nonneg_witness :
    0 ≤ ∑ i, exResult.ic_constraint i ⟨0, by decide⟩ * exResult.mechanism i ⟨0, by decide⟩ :=
  solved_mechanism_ic_nonneg oracleLP oracleLP_contract exSpec exResult exSolve ⟨0, by decide⟩
    (by show (0 : ℚ) < ∑ i : Fin 2, exResult.mechanism i ⟨0, by decide⟩
        rw [Fin.sum_univ_two]
        show (0 : ℚ) < 1/4 + 1/4
        norm_num)

/-- Witness for C3 at the concrete example: the returned bundle is exactly the
pipeline's artifacts. -/
theorem solve_result_bundle_witness :
    exResult = { n_grid := exValid.n_grid
                 mechanism := reshape ((oracleLP (assembleLP exValid exPrior)).x)
                 prior_constraint := exPrior
                 ic_constraint := build_ic_constraint exValid
                 value_mat := build_value_matrix exValid
                 status := .optimal } :=
  solve_result_bundle oracleLP exSpec exValid exPrior exResult exValidate exPriorConstraint exSolve

/-- Witness for C4 at the concrete example: the assembled LP has zero lower
bounds and no upper bounds, and a solved mechanism entry is nonnegative. -/
theorem lp_bounds_zero_and_mechanism_nonneg_witness :
    ((assembleLP exValid exPrior).lb = (fun _ => (0 : ℚ)) ∧
      (assembleLP exValid exPrior).ub = (fun _ => none)) ∧
    0 ≤ exResult.mechanism ⟨0, by decide⟩ ⟨1, by decide⟩ :=
  ⟨lp_bounds_zero_and_mechanism_nonneg.1 exValid exPrior,
   lp_bounds_zero_and_mechanism_nonneg.2 oracleLP oracleLP_contract exSpec exResult exSolve
     ⟨0, by decide⟩ ⟨1, by decide⟩⟩

/-- Witness for C5 at the concrete example: the objective value at the all-ones
vector is the negated flattened-value dot product. -/
theorem lp_cost_is_negated_value_witness :
    dot ((assembleLP exValid exPrior).cost) (fun _ => 1)
      = -(dot (flatten (build_value_matrix exValid)) (fun _ => 1)) :=
  (lp_cost_is_negated_value exValid exPrior).2.2 (fun _ => 1)

/-- Witness for C6 at n = 2: round-tripping a concrete matrix and a concrete
flat vector through `flatten`/`reshape` is the identity. -/
theorem flatten_reshape_inverses_witness :
    reshape (flatten (fun i j : Fin 2 => (i : ℚ) + 2 * (j : ℚ)))
        = (fun i j : Fin 2 => (i : ℚ) + 2 * (j : ℚ)) ∧
    flatten (reshape (fun k : Fin (2 * 2) => ((k : ℕ) : ℚ)))
        = (fun k : Fin (2 * 2) => ((k : ℕ) : ℚ)) :=
  ⟨(flatten_reshape_inverses 2).1 (fun i j : Fin 2 => (i : ℚ) + 2 * (j : ℚ)),
   (flatten_reshape_inverses 2).2 (fun k : Fin (2 * 2) => ((k : ℕ) : ℚ))⟩

/-- Witness for C7: a specification with a 1-point grid and unset function
fields makes solve report a `ConfigurationError`. -/
theorem invalid_spec_config_error_witness :
    isConfigErr (bayes_lp_solver oracleLP badSpec) :=
  invalid_spec_config_error oracleLP badSpec (Or.inl (by decide))

/-- Witness for C8: the flat prior normalizes to the uniform vector summing to
1; an everywhere-negative prior produces an index-carrying `EvaluationError`;
an all-zero prior produces the zero-mass `EvaluationError`. -/
theorem build_prior_constraint_spec_witness :
    ((∀ i, exPrior i = priorVals exValid i / priorTotal exValid) ∧ (∑ i, exPrior i) = 1) ∧
    negPriorErr negValid (build_prior_constraint negValid) ∧
    build_prior_constraint zeroValid =
      .error (.EvaluationError none "prior has zero total mass on the grid") :=
  ⟨(build_prior_constraint_spec exValid).1 exPrior exPriorConstraint,
   (build_prior_constraint_spec negValid).2.1
     ⟨⟨0, by decide⟩, by norm_num [priorVals, negValid, exValid]⟩,
   (build_prior_constraint_spec zeroValid).2.2
     (fun i => by norm_num [priorVals, zeroValid, exValid])
     (by show (∑ i : Fin 2, priorVals zeroValid (i : ℕ)) = 0
         rw [Fin.sum_univ_two]
         norm_num [priorVals, zeroValid, exValid])⟩

/-- Witness for C9: two field-by-field identical specifications solve to the
same result. -/
theorem solve_deterministic_witness :
    bayes_lp_solver oracleLP exSpec = bayes_lp_solver oracleLP exSpecCopy :=
  solve_deterministic oracleLP exSpec exSpecCopy rfl rfl rfl rfl rfl rfl

/-- Witness for C10 at the concrete example: grid size round-trips and the
notebook's total utility equals the double sum and the negated objective. -/
theorem solve_result_shape_and_utility_witness :
    exResult.n_grid = exSpec.n_grid ∧
    total_utility exResult = ∑ i, ∑ j, exResult.value_mat i j * exResult.mechanism i j ∧
    total_utility exResult =
      -(dot ((assembleLP exValid exPrior).cost) ((oracleLP (assembleLP exValid exPrior)).x)) :=
  solve_result_shape_and_utility oracleLP exSpec exValid exPrior exResult
    exValidate exPriorConstraint exSolve
